import Mathlib

/-!
Verification of the hwdb converter (`data/hwdb/generate_hwdb.py`).

The script reads a list of `.hwdb` text files and writes three tables
(`products`, `models`, `key_len`) into a freshly created store.  We embed
the line processing shallowly: Python strings become `String`, the three
sqlite tables become association lists, a plain `INSERT` into a column with
a `PRIMARY KEY` constraint fails when the key is already present, and the
uncaught Python exceptions (`ValueError` from unpacking a `split("=", 1)`
with no `=`, `sqlite3.IntegrityError` from a duplicate key) become the
error branch of `Except`.
-/

namespace GenerateHwdb

/-- Python `str.isspace` characters relevant to ASCII input, as used by
`str.strip()`. -/
def pyIsSpace (c : Char) : Bool :=
  c = ' ' || c = '\t' || c = '\n' || c = '\r' || c = '\x0b' || c = '\x0c'

/-- Python `str.strip()`: drop leading and trailing whitespace. -/
def pyStrip (s : String) : String :=
  String.mk (((s.data.dropWhile pyIsSpace).reverse.dropWhile pyIsSpace).reverse)

/-- Python `s.startswith(pre)`. -/
def pyStartsWith (s pre : String) : Bool :=
  pre.data.isPrefixOf s.data

/-- Python `s.endswith(suf)`. -/
def pyEndsWith (s suf : String) : Bool :=
  suf.data.isSuffixOf s.data

/-- Python `s.split(c)[0]`: the prefix of `s` before the first occurrence
of `c` (all of `s` when `c` does not occur). -/
def beforeFirst (c : Char) (s : String) : String :=
  String.mk (s.data.takeWhile (fun x => x != c))

/-- Split a character list at the first occurrence of `c`; `none` when `c`
does not occur. -/
def splitAtFirst (c : Char) : List Char → Option (List Char × List Char)
  | [] => none
  | x :: xs =>
    if x = c then some ([], xs)
    else (splitAtFirst c xs).map (fun p => (x :: p.1, p.2))

/-- Python `line.split("=", 1)` when used with a two-element unpack:
`some (before, after)` at the first `=`, and `none` (an uncaught
`ValueError`) when the line has no `=`. -/
def pySplitEq1 (line : String) : Option (String × String) :=
  (splitAtFirst '=' line.data).map (fun p => (String.mk p.1, String.mk p.2))

/-- Python `contents.split("\n")` on the underlying character list. -/
def splitOnChar (c : Char) : List Char → List (List Char)
  | [] => [[]]
  | x :: xs =>
    let r := splitOnChar c xs
    if x = c then [] :: r else (x :: r.headD []) :: r.tail

/-- sqlite `INSERT INTO t (key, value) VALUES (?, ?)` where `key` is the
`PRIMARY KEY`: fails (`IntegrityError`) when the key is already present,
otherwise appends the row. -/
def insertPK {α : Type} (tbl : List (String × α)) (k : String) (v : α) :
    Option (List (String × α)) :=
  if tbl.any (fun p => p.1 == k) then none else some (tbl ++ [(k, v)])

/-- The uncaught exceptions the script can die with. -/
inductive Err where
  | missingEq (line : String)
  | dupKey (table : String) (key : String)
deriving Repr, DecidableEq

/-- The script's mutable state while scanning: the two accumulating tables
(rows already inserted through the cursor), the running key-length bounds,
and the current `key` variable. -/
structure St where
  products : List (String × String)
  models : List (String × String)
  key_len_min : Nat
  key_len_max : Nat
  key : String
deriving Repr, DecidableEq

/-- Body of `for line in lines`, for one (already stripped, non-comment)
line. -/
def processLine (s : St) (line : String) : Except Err St :=
  if line = "" then .ok s
  else if pyEndsWith line "*" then
    let k := beforeFirst '*' line
    .ok { s with
      key := k,
      key_len_min := if k.length < s.key_len_min then k.length else s.key_len_min,
      key_len_max := if s.key_len_max < k.length then k.length else s.key_len_max }
  else if !(pyStartsWith line "ID_") then .ok s
  else
    match pySplitEq1 line with
    | none => .error (.missingEq line)
    | some (ty, value) =>
      if ty = "ID_PRODUCT_FROM_DATABASE" then
        match insertPK s.products (pyStrip s.key) (pyStrip value) with
        | none => .error (.dupKey "products" (pyStrip s.key))
        | some tbl => .ok { s with products := tbl }
      else if ty = "ID_MODEL_FROM_DATABASE" then
        match insertPK s.models (pyStrip s.key) (pyStrip value) with
        | none => .error (.dupKey "models" (pyStrip s.key))
        | some tbl => .ok { s with models := tbl }
      else .ok s

/-- `[line.strip() for line in raw if line.strip() and not line.startswith("#")]`. -/
def filterLines (raw : List String) : List String :=
  (raw.filter (fun l => (pyStrip l != "") && !(pyStartsWith l "#"))).map pyStrip

/-- The stripped, filtered lines of one file's contents. -/
def fileLines (contents : String) : List String :=
  filterLines ((splitOnChar '\n' contents.data).map String.mk)

/-- `for line in lines`, threading the state and propagating the first
uncaught exception. -/
def runLines : St → List String → Except Err St
  | s, [] => .ok s
  | s, l :: ls =>
    match processLine s l with
    | .error e => .error e
    | .ok s1 => runLines s1 ls

/-- Processing of one input file: `key = ''` and then the line loop. -/
def processFile (s : St) (contents : String) : Except Err St :=
  runLines { s with key := "" } (fileLines contents)

/-- `for filename in args.files`. -/
def runFilesFrom : St → List String → Except Err St
  | s, [] => .ok s
  | s, f :: fs =>
    match processFile s f with
    | .error e => .error e
    | .ok s1 => runFilesFrom s1 fs

/-- The store on disk: the three tables of `hw.db`. -/
structure Store where
  products : List (String × String)
  models : List (String × String)
  key_len : List (String × Nat)
deriving Repr, DecidableEq

/-- The store right after the three `CREATE TABLE` statements. -/
def emptyStore : Store := ⟨[], [], []⟩

/-- Initial scan state over a given store: empty accumulators come from
the store's (fresh) tables, `key_len_min = pow(2, 32)`, `key_len_max = 0`. -/
def stFromStore (db : Store) : St :=
  ⟨db.products, db.models, 2 ^ 32, 0, ""⟩

/-- The state at the top of the script, before any file is read. -/
def initSt : St := stFromStore emptyStore

/-- The whole scan over all input files from the initial state. -/
def runFiles (files : List String) : Except Err St :=
  runFilesFrom initSt files

/-- Scan every file and then run the two final `INSERT INTO key_len`
statements, producing the committed store. -/
def populate (db : Store) (files : List String) : Except Err Store :=
  match runFilesFrom (stFromStore db) files with
  | .error e => .error e
  | .ok s =>
    match insertPK db.key_len "min" s.key_len_min with
    | none => .error (.dupKey "key_len" "min")
    | some t1 =>
      match insertPK t1 "max" s.key_len_max with
      | none => .error (.dupKey "key_len" "max")
      | some t2 => .ok { products := s.products, models := s.models, key_len := t2 }

/-- The committed store of a run over a fresh database. -/
def finalStore (files : List String) : Except Err Store :=
  populate emptyStore files

/-- `os.remove(db_filename) if os.path.exists(db_filename) else None`:
whatever was on disk, the database file is gone afterwards. -/
def afterRemoveIfExists (dbFile : Option Store) : Option Store :=
  if dbFile.isSome then none else dbFile

/-- `sqlite3.connect`: open the existing file, or start from an empty store
when the file is absent. -/
def connectDb (dbFile : Option Store) : Store :=
  dbFile.getD emptyStore

/-- One invocation of the tool: `preexisting` is the `hw.db` already in the
output directory (if any); it is removed unconditionally before the store
is created and populated. -/
def programRun (preexisting : Option Store) (files : List String) : Except Err Store :=
  populate (connectDb (afterRemoveIfExists preexisting)) files

/-- The worked example input file of the spec, five lines. -/
def exampleInput : String :=
  "ab*\nID_PRODUCT_FROM_DATABASE=Acme Widget\nID_MODEL_FROM_DATABASE=Widget 2000\nabc*\nID_MODEL_FROM_DATABASE=Widget 3000"

/-- An input on which two model attribute lines share the key `ab`. -/
def dupInput : String :=
  "ab*\nID_MODEL_FROM_DATABASE=Widget 2000\nID_MODEL_FROM_DATABASE=Widget 3000"

/-- A key string compatible with the bounds `mn`/`mx`: either the initial
empty context (never counted in the bounds) or a key-line prefix whose
length was folded into the bounds. -/
def KeyW (mn mx : Nat) (k : String) : Prop :=
  k = "" ∨ (mn ≤ k.length ∧ k.length ≤ mx)

/-- Run invariant: the current key context and every stored table key are
trimmed forms of bound-compatible key contexts. -/
def Inv (s : St) : Prop :=
  KeyW s.key_len_min s.key_len_max s.key ∧
  (∀ p ∈ s.products, ∃ k, p.1 = pyStrip k ∧ KeyW s.key_len_min s.key_len_max k) ∧
  (∀ p ∈ s.models, ∃ k, p.1 = pyStrip k ∧ KeyW s.key_len_min s.key_len_max k)

instance {ε α : Type} [DecidableEq ε] [DecidableEq α] : DecidableEq (Except ε α) := fun a b =>
  match a, b with
  | .error x, .error y =>
    match decEq x y with
    | isTrue h => isTrue (h ▸ rfl)
    | isFalse h => isFalse (fun hh => h (Except.error.inj hh))
  | .error _, .ok _ => isFalse (fun hh => Except.noConfusion hh)
  | .ok _, .error _ => isFalse (fun hh => Except.noConfusion hh)
  | .ok x, .ok y =>
    match decEq x y with
    | isTrue h => isTrue (h ▸ rfl)
    | isFalse h => isFalse (fun hh => h (Except.ok.inj hh))

lemma pyEndsWith_star_ne_empty {line : String} (h : pyEndsWith line "*" = true) :
    line ≠ "" := by
  intro he
  subst he
  exact absurd h (by decide)

lemma pyStartsWith_ID_ne_empty {line : String} (h : pyStartsWith line "ID_" = true) :
    line ≠ "" := by
  intro he
  subst he
  exact absurd h (by decide)

/-- Claim C1: running the converter on the single five-line example file
produces `products = [("ab", "Acme Widget")]`,
`models = [("ab", "Widget 2000"), ("abc", "Widget 3000")]`, and
`key_len` rows `("min", 2)` and `("max", 3)`. -/
theorem C1_example :
    finalStore [exampleInput] = .ok
      { products := [("ab", "Acme Widget")],
        models := [("ab", "Widget 2000"), ("abc", "Widget 3000")],
        key_len := [("min", 2), ("max", 3)] } := by
  decide

/-- Claim C2 is false as stated: on the key line `"ab *"` the code keeps the
untrimmed prefix `"ab "` (length 3) as the key context and updates the
bounds with length 3, not with the trimmed key `"ab"` (length 2) the claim
prescribes. -/
theorem C2_counterexample :
    runFiles ["ab *"] = .ok ⟨[], [], 3, 3, "ab "⟩ ∧
    pyStrip "ab " = "ab" ∧
    ¬ (runFiles ["ab *"] = .ok ⟨[], [], (pyStrip "ab ").length, (pyStrip "ab ").length, pyStrip "ab "⟩) := by
  refine ⟨by decide, by decide, by decide⟩

/-- Claim C2 as amended: a line ending in `*` sets the key context to the
prefix of the (already stripped) line before its first `*`, without any
further trimming, updates the bounds with that untrimmed prefix's length,
and produces no table row; every non-key line leaves the key context
unchanged, so the context persists until the next key line. -/
theorem C2_amended (s : St) (line : String) (h : pyEndsWith line "*" = true) :
    processLine s line = .ok { s with
      key := beforeFirst '*' line,
      key_len_min :=
        if (beforeFirst '*' line).length < s.key_len_min then
          (beforeFirst '*' line).length
        else s.key_len_min,
      key_len_max :=
        if s.key_len_max < (beforeFirst '*' line).length then
          (beforeFirst '*' line).length
        else s.key_len_max } ∧
    ∀ (t t' : St) (l : String),
      pyEndsWith l "*" = false → processLine t l = .ok t' → t'.key = t.key := by
  constructor
  · have hne : line ≠ "" := pyEndsWith_star_ne_empty h
    simp [processLine, hne, h]
  · intro t t' l hl hp
    simp only [processLine, hl] at hp
    split at hp
    · cases hp
      rfl
    · simp only [Bool.false_eq_true, if_false] at hp
      split at hp
      · cases hp
        rfl
      · split at hp
        · exact absurd hp (by simp)
        · split at hp
          · split at hp
            · exact absurd hp (by simp)
            · cases hp
              rfl
          · split at hp
            · split at hp
              · exact absurd hp (by simp)
              · cases hp
                rfl
            · cases hp
              rfl

/-- Witness for the amended claim C2 at the concrete key line `"ab*"`. -/
theorem C2_amended_witness :
    processLine initSt "ab*" = .ok ⟨[], [], 2, 2, "ab"⟩ :=
  ((C2_amended initSt "ab*" (by decide)).1).trans (by decide)

lemma processLine_product (s : St) (line v : String)
    (hstar : pyEndsWith line "*" = false)
    (hid : pyStartsWith line "ID_" = true)
    (hsplit : pySplitEq1 line = some ("ID_PRODUCT_FROM_DATABASE", v)) :
    processLine s line =
      match insertPK s.products (pyStrip s.key) (pyStrip v) with
      | none => .error (.dupKey "products" (pyStrip s.key))
      | some tbl => .ok { s with products := tbl } := by
  have hne : line ≠ "" := pyStartsWith_ID_ne_empty hid
  simp [processLine, hne, hstar, hid, hsplit]

lemma processLine_model (s : St) (line v : String)
    (hstar : pyEndsWith line "*" = false)
    (hid : pyStartsWith line "ID_" = true)
    (hsplit : pySplitEq1 line = some ("ID_MODEL_FROM_DATABASE", v)) :
    processLine s line =
      match insertPK s.models (pyStrip s.key) (pyStrip v) with
      | none => .error (.dupKey "models" (pyStrip s.key))
      | some tbl => .ok { s with models := tbl } := by
  have hne : line ≠ "" := pyStartsWith_ID_ne_empty hid
  simp [processLine, hne, hstar, hid, hsplit]

/-- Claim C3 is false as stated: on a file where two model lines share the
key `ab`, the second `INSERT` violates the primary-key constraint and the
run aborts; it does not complete with the later value overwriting the
earlier one. -/
theorem C3_counterexample :
    finalStore [dupInput] = .error (.dupKey "models" "ab") ∧
    (finalStore [dupInput]).toOption = none := by
  exact ⟨by decide, by decide⟩

/-- Claim C3 as amended: an attribute line of a recognized category whose
(trimmed) key is not yet present in the corresponding table appends exactly
one entry under that key; when the key is already present, the insert fails
the primary-key constraint and the run aborts with a fatal error instead of
overwriting. -/
theorem C3_amended :
    (∀ (s : St) (line v : String),
      pyEndsWith line "*" = false →
      pyStartsWith line "ID_" = true →
      pySplitEq1 line = some ("ID_PRODUCT_FROM_DATABASE", v) →
      ((s.products.any (fun p => p.1 == pyStrip s.key) = false →
        processLine s line =
          .ok { s with products := s.products ++ [(pyStrip s.key, pyStrip v)] }) ∧
       (s.products.any (fun p => p.1 == pyStrip s.key) = true →
        processLine s line = .error (.dupKey "products" (pyStrip s.key))))) ∧
    (∀ (s : St) (line v : String),
      pyEndsWith line "*" = false →
      pyStartsWith line "ID_" = true →
      pySplitEq1 line = some ("ID_MODEL_FROM_DATABASE", v) →
      ((s.models.any (fun p => p.1 == pyStrip s.key) = false →
        processLine s line =
          .ok { s with models := s.models ++ [(pyStrip s.key, pyStrip v)] }) ∧
       (s.models.any (fun p => p.1 == pyStrip s.key) = true →
        processLine s line = .error (.dupKey "models" (pyStrip s.key))))) := by
  constructor
  · intro s line v hstar hid hsplit
    rw [processLine_product s line v hstar hid hsplit]
    constructor
    · intro hany
      simp [insertPK, hany]
    · intro hany
      simp [insertPK, hany]
  · intro s line v hstar hid hsplit
    rw [processLine_model s line v hstar hid hsplit]
    constructor
    · intro hany
      simp [insertPK, hany]
    · intro hany
      simp [insertPK, hany]

/-- Witness for the amended claim C3: with `("ab", "Widget 2000")` already
in the models table and key context `ab`, a second model line aborts with
the duplicate-key error. -/
theorem C3_amended_witness :
    processLine ⟨[], [("ab", "Widget 2000")], 2, 2, "ab"⟩
      "ID_MODEL_FROM_DATABASE=Widget 3000" = .error (.dupKey "models" "ab") :=
  ((C3_amended.2 ⟨[], [("ab", "Widget 2000")], 2, 2, "ab"⟩
      "ID_MODEL_FROM_DATABASE=Widget 3000" "Widget 3000"
      (by decide) (by decide) (by decide)).2 (by decide)).trans (by decide)

/-- Claim C5 is false as stated: a model attribute line with no preceding
key line does not abort the run; it is recorded under the empty-string
key. -/
theorem C5_counterexample :
    finalStore ["ID_MODEL_FROM_DATABASE=X"] = .ok
      { products := [], models := [("", "X")],
        key_len := [("min", 2 ^ 32), ("max", 0)] } := by
  decide

/-- Claim C5 as amended: a product or model attribute line processed while
the key context is still the initial empty string does not raise any error;
its row is recorded in the corresponding table under the empty-string key
(assuming that key is not already taken, in which case the usual
duplicate-key abort applies). -/
theorem C5_amended :
    (∀ (s : St) (line v : String),
      s.key = "" →
      pyEndsWith line "*" = false →
      pyStartsWith line "ID_" = true →
      pySplitEq1 line = some ("ID_PRODUCT_FROM_DATABASE", v) →
      s.products.any (fun p => p.1 == "") = false →
      processLine s line = .ok { s with products := s.products ++ [("", pyStrip v)] }) ∧
    (∀ (s : St) (line v : String),
      s.key = "" →
      pyEndsWith line "*" = false →
      pyStartsWith line "ID_" = true →
      pySplitEq1 line = some ("ID_MODEL_FROM_DATABASE", v) →
      s.models.any (fun p => p.1 == "") = false →
      processLine s line = .ok { s with models := s.models ++ [("", pyStrip v)] }) := by
  have h0 : pyStrip "" = "" := by decide
  constructor
  · intro s line v hkey hstar hid hsplit hany
    rw [processLine_product s line v hstar hid hsplit, hkey, h0]
    simp [insertPK, hany]
  · intro s line v hkey hstar hid hsplit hany
    rw [processLine_model s line v hstar hid hsplit, hkey, h0]
    simp [insertPK, hany]

/-- Witness for the amended claim C5: a model line at the very start of the
run is stored under the empty-string key without error. -/
theorem C5_amended_witness :
    processLine initSt "ID_MODEL_FROM_DATABASE=X" =
      .ok ⟨[], [("", "X")], 2 ^ 32, 0, ""⟩ :=
  (C5_amended.2 initSt "ID_MODEL_FROM_DATABASE=X" "X"
      rfl (by decide) (by decide) (by decide) (by decide)).trans (by decide)

lemma splitAtFirst_eq_none {c : Char} {l : List Char} :
    splitAtFirst c l = none ↔ c ∉ l := by
  induction l with
  | nil => simp [splitAtFirst]
  | cons x xs ih =>
    simp only [splitAtFirst]
    by_cases hx : x = c
    · simp [hx]
    · simp [hx, Option.map_eq_none', ih, List.mem_cons, Ne.symm hx]

lemma pySplitEq1_eq_none {line : String} :
    pySplitEq1 line = none ↔ '=' ∉ line.data := by
  simp [pySplitEq1, Option.map_eq_none', splitAtFirst_eq_none]

/-- Claim C6 is false as stated: the line `"ID_FOO*"` starts with `ID_` and
contains no `=`, yet the run does not fail — the trailing `*` makes it a
key line, so the whole run succeeds. -/
theorem C6_counterexample :
    pyStartsWith "ID_FOO*" "ID_" = true ∧
    "ID_FOO*".data.contains '=' = false ∧
    finalStore ["ID_FOO*"] = .ok
      { products := [], models := [], key_len := [("min", 6), ("max", 6)] } := by
  exact ⟨by decide, by decide, by decide⟩

/-- Claim C6 as amended: a line that starts with `ID_`, does not end with
`*`, and contains no `=` aborts the run with the missing-`=` error; and a
line containing `=` can never produce the missing-`=` error. -/
theorem C6_amended :
    (∀ (s : St) (line : String),
      pyStartsWith line "ID_" = true →
      pyEndsWith line "*" = false →
      '=' ∉ line.data →
      processLine s line = .error (.missingEq line)) ∧
    (∀ (s : St) (line l' : String),
      '=' ∈ line.data →
      processLine s line ≠ .error (.missingEq l')) := by
  constructor
  · intro s line hid hstar hmem
    have hne : line ≠ "" := pyStartsWith_ID_ne_empty hid
    have hnone : pySplitEq1 line = none := pySplitEq1_eq_none.mpr hmem
    simp [processLine, hne, hstar, hid, hnone]
  · intro s line l' hmem
    simp only [processLine]
    split
    · exact fun hh => Except.noConfusion hh
    · split
      · exact fun hh => Except.noConfusion hh
      · split
        · exact fun hh => Except.noConfusion hh
        · split
          · rename_i heq
            exact absurd hmem (pySplitEq1_eq_none.mp heq)
          · split
            · split
              · exact fun hh => Err.noConfusion (Except.error.inj hh)
              · exact fun hh => Except.noConfusion hh
            · split
              · split
                · exact fun hh => Err.noConfusion (Except.error.inj hh)
                · exact fun hh => Except.noConfusion hh
              · exact fun hh => Except.noConfusion hh

/-- Witness for the amended claim C6 at the concrete line `"ID_FOO"`. -/
theorem C6_amended_witness :
    processLine initSt "ID_FOO" = .error (.missingEq "ID_FOO") :=
  C6_amended.1 initSt "ID_FOO" (by decide) (by decide) (by decide)

lemma afterRemoveIfExists_eq_none (o : Option Store) :
    afterRemoveIfExists o = none := by
  cases o <;> simp [afterRemoveIfExists]

/-- Claim C7: the resulting table contents depend only on the input files;
whatever `hw.db` was already in the output directory (if any) is removed
unconditionally, so every run coincides with a run over a fresh store and
no stale row survives. -/
theorem C7_fresh_store (pre pre' : Option Store) (files : List String) :
    programRun pre files = programRun pre' files ∧
    programRun pre files = finalStore files := by
  have h : ∀ o : Option Store, programRun o files = finalStore files := by
    intro o
    simp [programRun, afterRemoveIfExists_eq_none, connectDb, finalStore]
  exact ⟨(h pre).trans (h pre').symm, h pre⟩

/-- Claim C8: a blank line or a line starting with `#`, at any position
among a file's raw lines, is filtered out before processing: it yields no
table row, leaves the key-length bounds untouched, and does not disturb the
key context that the surrounding lines establish. -/
theorem C8_noop (raw1 raw2 : List String) (b : String)
    (hb : pyStrip b = "" ∨ pyStartsWith b "#" = true) :
    filterLines (raw1 ++ b :: raw2) = filterLines (raw1 ++ raw2) ∧
    ∀ s : St, runLines s (filterLines (raw1 ++ b :: raw2)) =
      runLines s (filterLines (raw1 ++ raw2)) := by
  have hcond : ((pyStrip b != "") && !(pyStartsWith b "#")) = false := by
    rcases hb with h | h
    · rw [h]
      simp
    · rw [h]
      simp
  have hf : filterLines (raw1 ++ b :: raw2) = filterLines (raw1 ++ raw2) := by
    simp [filterLines, List.filter_append, List.filter_cons, hcond]
  exact ⟨hf, fun s => by rw [hf]⟩

/-- Witness for claim C8: a comment line between the key line and the
attribute line changes nothing. -/
theorem C8_noop_witness :
    filterLines ["ab*", "# x", "ID_MODEL_FROM_DATABASE=X"] =
      filterLines ["ab*", "ID_MODEL_FROM_DATABASE=X"] :=
  (C8_noop ["ab*"] ["ID_MODEL_FROM_DATABASE=X"] "# x" (Or.inr (by decide))).1

/-- Claim C10: the key context is reset to the empty string at the start of
each input file — the result of processing a file never depends on the key
left over from the previous file — and, concretely, an attribute line in a
second file whose own file has no preceding key line is recorded under the
empty-string key even though the first file ended with key `ab`. -/
theorem C10_key_reset :
    (∀ (s : St) (contents : String),
      processFile s contents = processFile { s with key := "" } contents) ∧
    runFiles ["ab*", "ID_MODEL_FROM_DATABASE=X"] =
      .ok { products := [], models := [("", "X")],
            key_len_min := 2, key_len_max := 2, key := "" } := by
  exact ⟨fun s contents => rfl, by decide⟩

lemma KeyW_mono {mn mx mn' mx' : Nat} {k : String} (h1 : mn' ≤ mn) (h2 : mx ≤ mx') :
    KeyW mn mx k → KeyW mn' mx' k := by
  rintro (h | ⟨a, b⟩)
  · exact Or.inl h
  · exact Or.inr ⟨le_trans h1 a, le_trans b h2⟩

/-- Exhaustive description of the successful outcomes of one line: no-op,
key line, product insert, or model insert. -/
lemma processLine_ok_cases {s s' : St} {line : String}
    (h : processLine s line = .ok s') :
    s' = s ∨
    (pyEndsWith line "*" = true ∧
      s' = { s with
        key := beforeFirst '*' line,
        key_len_min :=
          if (beforeFirst '*' line).length < s.key_len_min then
            (beforeFirst '*' line).length
          else s.key_len_min,
        key_len_max :=
          if s.key_len_max < (beforeFirst '*' line).length then
            (beforeFirst '*' line).length
          else s.key_len_max }) ∨
    (∃ w, s' = { s with products := s.products ++ [(pyStrip s.key, w)] }) ∨
    (∃ w, s' = { s with models := s.models ++ [(pyStrip s.key, w)] }) := by
  simp only [processLine] at h
  split at h
  · exact Or.inl (Except.ok.inj h).symm
  · split at h
    · rename_i hstar
      exact Or.inr (Or.inl ⟨hstar, (Except.ok.inj h).symm⟩)
    · split at h
      · exact Or.inl (Except.ok.inj h).symm
      · split at h
        · exact Except.noConfusion h
        · rename_i ty v heq
          split at h
          · split at h
            · exact Except.noConfusion h
            · rename_i tbl hins
              simp only [insertPK] at hins
              split at hins
              · exact Option.noConfusion hins
              · refine Or.inr (Or.inr (Or.inl ⟨pyStrip v, ?_⟩))
                rw [← Except.ok.inj h, ← Option.some.inj hins]
          · split at h
            · split at h
              · exact Except.noConfusion h
              · rename_i tbl hins
                simp only [insertPK] at hins
                split at hins
                · exact Option.noConfusion hins
                · refine Or.inr (Or.inr (Or.inr ⟨pyStrip v, ?_⟩))
                  rw [← Except.ok.inj h, ← Option.some.inj hins]
            · exact Or.inl (Except.ok.inj h).symm

/-- A successful line step can only shrink `key_len_min` and grow
`key_len_max`. -/
lemma processLine_bounds_mono {s s' : St} {line : String}
    (h : processLine s line = .ok s') :
    s'.key_len_min ≤ s.key_len_min ∧ s.key_len_max ≤ s'.key_len_max := by
  rcases processLine_ok_cases h with h1 | ⟨hstar, h2⟩ | ⟨w, h3⟩ | ⟨w, h4⟩
  · subst h1
    exact ⟨le_refl _, le_refl _⟩
  · subst h2
    constructor
    · dsimp only
      split <;> omega
    · dsimp only
      split <;> omega
  · subst h3
    exact ⟨le_refl _, le_refl _⟩
  · subst h4
    exact ⟨le_refl _, le_refl _⟩

lemma processLine_inv {s s' : St} {line : String} (hi : Inv s)
    (h : processLine s line = .ok s') : Inv s' := by
  obtain ⟨hmono1, hmono2⟩ := processLine_bounds_mono h
  obtain ⟨hkey, hprod, hmod⟩ := hi
  rcases processLine_ok_cases h with h1 | ⟨hstar, h2⟩ | ⟨w, h3⟩ | ⟨w, h4⟩
  · subst h1
    exact ⟨hkey, hprod, hmod⟩
  · subst h2
    refine ⟨?_, ?_, ?_⟩
    · refine Or.inr ⟨?_, ?_⟩
      · dsimp only
        split <;> omega
      · dsimp only
        split <;> omega
    · intro p hp
      obtain ⟨k, hk, hkw⟩ := hprod p hp
      exact ⟨k, hk, KeyW_mono hmono1 hmono2 hkw⟩
    · intro p hp
      obtain ⟨k, hk, hkw⟩ := hmod p hp
      exact ⟨k, hk, KeyW_mono hmono1 hmono2 hkw⟩
  · subst h3
    refine ⟨hkey, ?_, hmod⟩
    intro p hp
    rcases List.mem_append.mp hp with hm | hm
    · exact hprod p hm
    · have hpw : p = (pyStrip s.key, w) := by simpa using hm
      subst hpw
      exact ⟨s.key, rfl, hkey⟩
  · subst h4
    refine ⟨hkey, hprod, ?_⟩
    intro p hp
    rcases List.mem_append.mp hp with hm | hm
    · exact hmod p hm
    · have hpw : p = (pyStrip s.key, w) := by simpa using hm
      subst hpw
      exact ⟨s.key, rfl, hkey⟩

lemma runLines_preserves (P : St → Prop) :
    ∀ ls : List String,
      (∀ l ∈ ls, ∀ t t' : St, P t → processLine t l = .ok t' → P t') →
      ∀ s s' : St, P s → runLines s ls = .ok s' → P s' := by
  intro ls
  induction ls with
  | nil =>
    intro _ s s' hP h
    simp only [runLines] at h
    exact (Except.ok.inj h) ▸ hP
  | cons l ls ih =>
    intro hstep s s' hP h
    simp only [runLines] at h
    cases hpl : processLine s l with
    | error e =>
      rw [hpl] at h
      exact Except.noConfusion h
    | ok s1 =>
      rw [hpl] at h
      exact ih (fun a ha t t' => hstep a (List.mem_cons_of_mem l ha) t t')
        s1 s' (hstep l (List.mem_cons_self l ls) s s1 hP hpl) h

lemma runFilesFrom_preserves (P : St → Prop) :
    ∀ fs : List String,
      (∀ f ∈ fs, ∀ t t' : St, P t → processFile t f = .ok t' → P t') →
      ∀ s s' : St, P s → runFilesFrom s fs = .ok s' → P s' := by
  intro fs
  induction fs with
  | nil =>
    intro _ s s' hP h
    simp only [runFilesFrom] at h
    exact (Except.ok.inj h) ▸ hP
  | cons f fs ih =>
    intro hstep s s' hP h
    simp only [runFilesFrom] at h
    cases hpf : processFile s f with
    | error e =>
      rw [hpf] at h
      exact Except.noConfusion h
    | ok s1 =>
      rw [hpf] at h
      exact ih (fun a ha t t' => hstep a (List.mem_cons_of_mem f ha) t t')
        s1 s' (hstep f (List.mem_cons_self f fs) s s1 hP hpf) h

lemma processFile_inv {s s' : St} {c : String} (hi : Inv s)
    (h : processFile s c = .ok s') : Inv s' := by
  have hi' : Inv { s with key := "" } := ⟨Or.inl rfl, hi.2.1, hi.2.2⟩
  exact runLines_preserves Inv (fileLines c)
    (fun l _ t t' hP hstep => processLine_inv hP hstep)
    { s with key := "" } s' hi' h

lemma runFiles_inv {files : List String} {s : St}
    (h : runFilesFrom initSt files = .ok s) : Inv s := by
  refine runFilesFrom_preserves Inv files
    (fun f _ t t' hP hstep => processFile_inv hP hstep) initSt s ?_ h
  refine ⟨Or.inl rfl, ?_, ?_⟩
  · intro p hp
    exact absurd hp (List.not_mem_nil p)
  · intro p hp
    exact absurd hp (List.not_mem_nil p)

/-- A committed store comes from a successful scan, with the two `key_len`
rows appended to the fresh table. -/
lemma finalStore_ok {files : List String} {db : Store}
    (h : finalStore files = .ok db) :
    ∃ s, runFilesFrom initSt files = .ok s ∧
      db = { products := s.products, models := s.models,
             key_len := [("min", s.key_len_min), ("max", s.key_len_max)] } := by
  simp only [finalStore, populate] at h
  split at h
  · exact Except.noConfusion h
  · rename_i s hrun
    refine ⟨s, hrun, ?_⟩
    have e1 : insertPK emptyStore.key_len "min" s.key_len_min =
        some [("min", s.key_len_min)] := rfl
    split at h
    · rename_i heq
      rw [e1] at heq
      exact Option.noConfusion heq
    · rename_i t1 heq
      have ht1 := Option.some.inj (e1.symm.trans heq)
      subst ht1
      have e2 : insertPK [("min", s.key_len_min)] "max" s.key_len_max =
          some [("min", s.key_len_min), ("max", s.key_len_max)] := rfl
      split at h
      · rename_i heq2
        rw [e2] at heq2
        exact Option.noConfusion heq2
      · rename_i t2 heq2
        have ht2 := Option.some.inj (e2.symm.trans heq2)
        subst ht2
        exact (Except.ok.inj h).symm

/-- Claim C4 is false as stated: on the file `"ab *⏎ID_MODEL_FROM_DATABASE=X"`
the stored model key is the trimmed `"ab"` of length 2, while `key_len`
stores `min = 3` (the untrimmed context `"ab "` was measured), so the
stored `min` exceeds the length of a stored key. -/
theorem C4_counterexample :
    finalStore ["ab *\nID_MODEL_FROM_DATABASE=X"] = .ok
      { products := [], models := [("ab", "X")],
        key_len := [("min", 3), ("max", 3)] } ∧
    ¬ (3 ≤ ("ab" : String).length) := by
  exact ⟨by decide, by decide⟩

/-- Claim C4 as amended: at the end of every successful run, each key
stored in the products or models table is the trimmed form of some key
context `k`, where `k` is either the empty initial context (attribute line
with no preceding key line in its file, never measured by the bounds) or a
key-line context whose untrimmed length lies between the values stored in
`key_len` under `min` and `max`. -/
theorem C4_amended (files : List String) (db : Store) (mn mx : Nat)
    (hok : finalStore files = .ok db)
    (hmn : ("min", mn) ∈ db.key_len) (hmx : ("max", mx) ∈ db.key_len) :
    ∀ p ∈ db.products ++ db.models,
      ∃ k, p.1 = pyStrip k ∧ (k = "" ∨ (mn ≤ k.length ∧ k.length ≤ mx)) := by
  obtain ⟨s, hrun, hdb⟩ := finalStore_ok hok
  subst hdb
  have hmn' : mn = s.key_len_min := by
    simp only [List.mem_cons, List.not_mem_nil, or_false, Prod.mk.injEq] at hmn
    rcases hmn with ⟨_, hv⟩ | ⟨hk, _⟩
    · exact hv
    · exact absurd hk (by decide)
  have hmx' : mx = s.key_len_max := by
    simp only [List.mem_cons, List.not_mem_nil, or_false, Prod.mk.injEq] at hmx
    rcases hmx with ⟨hk, _⟩ | ⟨_, hv⟩
    · exact absurd hk (by decide)
    · exact hv
  subst hmn'
  subst hmx'
  have hinv : Inv s := runFiles_inv hrun
  intro p hp
  rcases List.mem_append.mp hp with hm | hm
  · exact hinv.2.1 p hm
  · exact hinv.2.2 p hm

/-- Witness for the amended claim C4, instantiated on the worked example
file at the stored products row `("ab", "Acme Widget")`. -/
theorem C4_amended_witness :
    ∃ k, ("ab", "Acme Widget").1 = pyStrip k ∧
      (k = "" ∨ (2 ≤ k.length ∧ k.length ≤ 3)) :=
  C4_amended [exampleInput]
    { products := [("ab", "Acme Widget")],
      models := [("ab", "Widget 2000"), ("abc", "Widget 3000")],
      key_len := [("min", 2), ("max", 3)] }
    2 3 (by decide) (by decide) (by decide) ("ab", "Acme Widget") (by decide)

/-- Claim C9 is false as stated: the single-line file `"ID_FOO"` contains
no key line, yet the run does not complete — it aborts with the
missing-`=` error before reaching the `key_len` inserts. -/
theorem C9_counterexample :
    finalStore ["ID_FOO"] = .error (.missingEq "ID_FOO") ∧
    (fileLines "ID_FOO").all (fun l => !(pyEndsWith l "*")) = true := by
  exact ⟨by decide, by decide⟩

/-- Claim C9 as amended: if no line of any input file establishes a key
(no filtered line ends with `*`) and the run completes without a fatal
error, the sentinel bounds are emitted unchanged: `key_len` holds
`("min", 2 ^ 32)` and `("max", 0)`, so the stored min exceeds the stored
max. -/
theorem C9_amended (files : List String) (db : Store)
    (hnokey : ∀ f ∈ files, ∀ l ∈ fileLines f, pyEndsWith l "*" = false)
    (hok : finalStore files = .ok db) :
    db.key_len = [("min", 2 ^ 32), ("max", 0)] := by
  obtain ⟨s, hrun, hdb⟩ := finalStore_ok hok
  have hbounds : s.key_len_min = 2 ^ 32 ∧ s.key_len_max = 0 := by
    refine runFilesFrom_preserves
      (fun t => t.key_len_min = 2 ^ 32 ∧ t.key_len_max = 0) files
      ?_ initSt s ⟨rfl, rfl⟩ hrun
    intro f hf t t' hP hpf
    refine runLines_preserves
      (fun u => u.key_len_min = 2 ^ 32 ∧ u.key_len_max = 0) (fileLines f)
      ?_ { t with key := "" } t' hP hpf
    intro l hl u u' hPu hpl
    rcases processLine_ok_cases hpl with h1 | ⟨hstar, _⟩ | ⟨w, h3⟩ | ⟨w, h4⟩
    · subst h1
      exact hPu
    · exact absurd hstar (by simp [hnokey f hf l hl])
    · subst h3
      exact hPu
    · subst h4
      exact hPu
  rw [hdb, hbounds.1, hbounds.2]

/-- Witness for the amended claim C9 on a run over one empty file. -/
theorem C9_amended_witness :
    Store.key_len
      { products := [], models := [], key_len := [("min", 2 ^ 32), ("max", 0)] } =
    [("min", 2 ^ 32), ("max", 0)] :=
  C9_amended [""]
    { products := [], models := [], key_len := [("min", 2 ^ 32), ("max", 0)] }
    (by decide) (by decide)

end GenerateHwdb
